import Mathlib

/-!
Verification of the Deep-RL-Stocks repository (src/models/environment.py and
src/models/model.py) against its natural-language specification.

Shallow embedding conventions:
- Python floats are modelled as rationals.
- Python date strings are modelled by their hyphen-separated token lists
  (the result of re.split on the hyphen), each token a Lean String.
- datetime.date objects are modelled by their proleptic-Gregorian ordinal
  (days since 0001-01-01, as in Python date.toordinal); date subtraction
  yields the difference of ordinals, timedelta addition adds to the ordinal.
- The trading calendar (the SPY.csv date index) is a Boolean predicate on
  day ordinals.
- Exceptions are modelled with Except or dedicated result inductives.
- State.py is not part of src/; the pieces of it that the claims need are
  modelled from the specification and marked as such in their doc comments.
-/

/-! ## Python string helpers (per-token) -/

/-- Python str.isdigit for a single token: nonempty and all characters digits. -/
def pyDigits (s : String) : Bool :=
  !s.data.isEmpty && s.data.all Char.isDigit

/-- Python int(token) for a digit token: decimal value of the character list.
On tokens that are not digit strings this total model returns a garbage value;
the embedded code only consults it on tokens that passed the digit check. -/
def pyInt (s : String) : Nat :=
  s.data.foldl (fun n c => 10 * n + (c.toNat - 48)) 0

/-! ## Gregorian calendar (datetime.date model) -/

/-- Gregorian leap-year test. -/
def isLeap (y : Nat) : Bool :=
  (y % 4 == 0 && y % 100 != 0) || y % 400 == 0

/-- Number of days in month m of year y (months are 1-based); 0 for out-of-range m. -/
def daysInMonth (y m : Nat) : Nat :=
  match m with
  | 1 => 31
  | 2 => if isLeap y then 29 else 28
  | 3 => 31
  | 4 => 30
  | 5 => 31
  | 6 => 30
  | 7 => 31
  | 8 => 31
  | 9 => 30
  | 10 => 31
  | 11 => 30
  | 12 => 31
  | _ => 0

/-- Days in year y strictly before month m. -/
def daysBeforeMonth (y : Nat) : Nat → Nat
  | 0 => 0
  | 1 => 0
  | m + 1 => daysBeforeMonth y m + daysInMonth y m

/-- Proleptic-Gregorian ordinal of year/month/day, as Python date.toordinal:
ordinal of 0001-01-01 is 1. -/
def toOrdinal (y m d : Nat) : Nat :=
  365 * (y - 1) + (y - 1) / 4 - (y - 1) / 100 + (y - 1) / 400 + daysBeforeMonth y m + d

/-- Argument validity of the datetime.date constructor: it raises unless
1 <= year <= 9999, 1 <= month <= 12 and 1 <= day <= length of the month. -/
def validYMD (y m d : Nat) : Bool :=
  decide (1 ≤ y ∧ y ≤ 9999 ∧ 1 ≤ m ∧ m ≤ 12 ∧ 1 ≤ d ∧ d ≤ daysInMonth y m)

/-! ## StockEnv.initialize_date (environment.py lines 174-197) -/

/-- Outcome of StockEnv.initialize_date. The Python method either returns the
boolean False early (no exception), raises (ValueError from its own check or
from the datetime.date constructor, or IndexError on short token lists), or
completes after storing max_epochs. Only the stored max_epochs matters to the
claims, so the ok constructor carries it. -/
inductive InitDateResult where
  | returnedFalse : InitDateResult
  | raised : InitDateResult
  | ok : Int → InitDateResult
deriving DecidableEq, Repr

/-- The validation loop of initialize_date over the zipped token pairs.
Mirrors: for x, y in zip(start_arr, end_arr), update date_is_valid with the
digit test, then either refresh it with the positivity test or return early.
Returns none for the early return (Python returns False there) and some v for
normal completion with final flag v. -/
def dateLoop : List (String × String) → Bool → Option Bool
  | [], v => some v
  | (x, y) :: rest, v =>
    let v := pyDigits x && pyDigits y && v
    if v then dateLoop rest (decide (0 < pyInt x) && decide (0 < pyInt y))
    else none

/-- StockEnv.initialize_date on the token lists of the two date strings.
Note the argument order of the datetime.date constructor in the source:
date(arr[2], arr[0], arr[1]), i.e. year is the third token, month the first,
day the second. Python would raise inside the int() list comprehension if a
token beyond the zipped prefix is not numeric; this model only consults such
tokens through pyInt, which is total, so that corner is not modelled. -/
def initialize_date (start_arr end_arr : List String) : InitDateResult :=
  match dateLoop (start_arr.zip end_arr) true with
  | none => InitDateResult.returnedFalse
  | some v =>
    let date1 := start_arr.map pyInt
    let date2 := end_arr.map pyInt
    match date1.get? 2, date1.get? 0, date1.get? 1, date2.get? 2, date2.get? 0, date2.get? 1 with
    | some y1, some m1, some d1, some y2, some m2, some d2 =>
      if validYMD y1 m1 d1 && validYMD y2 m2 d2 then
        let epochs : Int := (toOrdinal y2 m2 d2 : Int) - (toOrdinal y1 m1 d1 : Int)
        if v = true ∧ 0 ≤ epochs then InitDateResult.ok (epochs * 2)
        else InitDateResult.raised
      else InitDateResult.raised
    | _, _, _, _, _, _ => InitDateResult.raised

/-- Ordinal of the date that initialize_date and get_date_and_time build from a
token list: year from token 2, month from token 0, day from token 1. -/
def parsedOrdinal (arr : List String) : Int :=
  let a := arr.map pyInt
  match a.get? 2, a.get? 0, a.get? 1 with
  | some y, some m, some d => (toOrdinal y m d : Int)
  | _, _, _ => 0

/-! ## StockEnv.get_date_and_time (environment.py lines 151-160) -/

/-- Outcome of get_date_and_time: the current date (as ordinal) and time label,
or an exception from parsing or the date constructor. -/
inductive DateTimeResult where
  | raised : DateTimeResult
  | ok : Int → String → DateTimeResult
deriving DecidableEq, Repr

/-- StockEnv.get_date_and_time on the token list of start_date: time is Open
for even epochs, Close for odd; the date is the parsed start date advanced by
epochs // 2 days (Python floor division, hence Int.fdiv). -/
def get_date_and_time (start_arr : List String) (epochs : Int) : DateTimeResult :=
  let time := if epochs % 2 == 0 then "Open" else "Close"
  let arr := start_arr.map pyInt
  match arr.get? 2, arr.get? 0, arr.get? 1 with
  | some y, some m, some d =>
    if validYMD y m d then DateTimeResult.ok ((toOrdinal y m d : Int) + epochs.fdiv 2) time
    else DateTimeResult.raised
  | _, _, _ => DateTimeResult.raised

/-! ## StockEnv.is_done (environment.py lines 117-121) -/

/-- StockEnv.is_done: epochs >= max_epochs. -/
def is_done (epochs max_epochs : Int) : Bool :=
  decide (epochs ≥ max_epochs)

/-! ## StockEnv.increment_date (environment.py lines 98-115) -/

/-- The search loop of increment_date. The Python loop keeps a counter incr
starting at 1; it tests whether the start date advanced by
(epochs + incr) // 2 days is in the trading calendar; on failure it increments
incr, recomputes the date, and raises as soon as incr reaches 20 - before that
date is ever tested. Here left is the number of increments still allowed
before the raise, i.e. left = 19 - incr, so the offsets tested are exactly
incr, incr+1, ..., 19. -/
def incrementDateAux (valid_dates : Int → Bool) (startDay epochs : Int) :
    Nat → Nat → Except String Int
  | incr, 0 =>
    if valid_dates (startDay + (epochs + (incr : Int)).fdiv 2) then
      Except.ok (epochs + (incr : Int))
    else Except.error "out of range"
  | incr, left + 1 =>
    if valid_dates (startDay + (epochs + (incr : Int)).fdiv 2) then
      Except.ok (epochs + (incr : Int))
    else incrementDateAux valid_dates startDay epochs (incr + 1) left

/-- StockEnv.increment_date: on success the new value of self.epochs, on
exhaustion of the 20-increment bound the out-of-range exception (whose Python
message also interpolates the offending date; the message content is not
modelled). -/
def increment_date (valid_dates : Int → Bool) (startDay epochs : Int) : Except String Int :=
  incrementDateAux valid_dates startDay epochs 1 18

/-! ## StockEnv state and step (environment.py lines 29-148)

The State object lives in State.py, which is not part of src/; its operations
are modelled from the specification where marked. Its date/time attributes are
kept derived from the epoch counter of the environment, which is how the
source computes them before passing them in. -/

/-- The cash and holdings portion of the State object. -/
structure StockState where
  cash : ℚ
  holdings : List ℚ

/-- Dot product of two price/holding vectors. -/
def dot (xs ys : List ℚ) : ℚ :=
  (List.zipWith (fun a b => a * b) xs ys).sum

/-- Modelled from the spec: State.get_new_holdings (State.py is missing from
src/). New holdings are the old holdings plus the action, and the remaining
cash is the old cash minus the cost of the action at the current prices. -/
def get_new_holdings (st : StockState) (action prices_old : List ℚ) : List ℚ × ℚ :=
  (List.zipWith (fun h a => h + a) st.holdings action, st.cash - dot action prices_old)

/-- Modelled from the spec: State.advance_state (State.py is missing from
src/). Replaces cash and holdings in place; the date/time components are
derived from the epoch counter of the owning environment. -/
def StockState.advance_state (st : StockState) (remaining_money : ℚ) (holdings : List ℚ) :
    StockState :=
  { st with cash := remaining_money, holdings := holdings }

/-- The StockEnv object. valid_dates is the SPY.csv date index; prices is
modelled from the spec as the price lookup of State.get_stock_prices, keyed by
day ordinal and time (true = Open, false = Close); startDay is the ordinal of
the parsed start_date. -/
structure StockEnv where
  valid_dates : Int → Bool
  prices : Int → Bool → List ℚ
  startDay : Int
  max_epochs : Int
  epochs : Int
  starting_amount : ℚ
  st : StockState

/-- The (date, time) pair of get_date_and_time for the current epoch counter,
as (day ordinal, is-Open flag). -/
def StockEnv.dateTime (env : StockEnv) : Int × Bool :=
  (env.startDay + env.epochs.fdiv 2, env.epochs % 2 == 0)

/-- Modelled from the spec: State.calculate_portfolio_value = cash plus the
mark-to-market value of the holdings at the prices of the current date/time. -/
def StockEnv.calculate_portfolio_value (env : StockEnv) : ℚ :=
  env.st.cash + dot env.st.holdings (env.prices env.dateTime.1 env.dateTime.2)

/-- StockEnv.calculate_reward (environment.py lines 67-73):
remaining_money + sum(holdings * stock_prices_new) - self.starting_amount. -/
def StockEnv.calculate_reward (env : StockEnv) (holdings : List ℚ) (remaining_money : ℚ)
    (stock_prices_new : List ℚ) : ℚ :=
  remaining_money + dot holdings stock_prices_new - env.starting_amount

/-- StockEnv.step (environment.py lines 75-95): fetch current prices, compute
new holdings and cash, advance the date, fetch the new prices, commit the new
state, and return it with the reward and the done flag. A raise inside
increment_date propagates. -/
def StockEnv.step (env : StockEnv) (action : List ℚ) : Except String (StockEnv × ℚ × Bool) :=
  let old := env.dateTime
  let stock_prices_old := env.prices old.1 old.2
  let hm := get_new_holdings env.st action stock_prices_old
  match increment_date env.valid_dates env.startDay env.epochs with
  | Except.error msg => Except.error msg
  | Except.ok e' =>
    let env1 := { env with epochs := e' }
    let nw := env1.dateTime
    let stock_prices_new := env1.prices nw.1 nw.2
    let env2 := { env1 with st := env1.st.advance_state hm.2 hm.1 }
    let reward := env2.calculate_reward hm.1 hm.2 stock_prices_new
    Except.ok (env2, reward, is_done env2.epochs env2.max_epochs)

/-- StockEnv.reset (environment.py lines 123-148), with the randomised choices
of starting money, starting shares and starting epoch supplied as arguments
(initialize_starting_epoch draws start_epoch, or uses -1 without random
start, and then calls increment_date). After the epoch and state are
reinitialised, starting_amount is set to the fresh portfolio value. -/
def StockEnv.reset (env : StockEnv) (starting_money : ℚ) (starting_shares : List ℚ)
    (start_epoch : Int) : Except String StockEnv :=
  match increment_date env.valid_dates env.startDay start_epoch with
  | Except.error msg => Except.error msg
  | Except.ok e' =>
    let env1 := { env with epochs := e', st := { cash := starting_money, holdings := starting_shares } }
    Except.ok { env1 with starting_amount := env1.calculate_portfolio_value }

/-! ## ReplayBuffer (model.py lines 297-326)

The five parallel arrays of the source are written at the same index on every
add, so they are collapsed into one storage map to an abstract transition
type; the numeric content of a transition is irrelevant to the claims about
the buffer indices. -/

/-- The ReplayBuffer object: capacity, write pointer, current size and
storage. -/
structure ReplayBuffer (T : Type) where
  max_size : Nat
  ptr : Nat
  size : Nat
  storage : Nat → T

/-- A fresh buffer: the source allocates zero arrays; init is that zero
content. -/
def ReplayBuffer.empty (T : Type) (init : T) (max_size : Nat) : ReplayBuffer T :=
  ⟨max_size, 0, 0, fun _ => init⟩

/-- ReplayBuffer.add (model.py lines 309-316): write the transition at ptr,
advance ptr modulo max_size, clamp size at max_size. -/
def ReplayBuffer.add {T : Type} (b : ReplayBuffer T) (t : T) : ReplayBuffer T :=
  { b with
    storage := fun i => if i = b.ptr then t else b.storage i,
    ptr := (b.ptr + 1) % b.max_size,
    size := min (b.size + 1) b.max_size }

/-- A sequence of add calls. -/
def ReplayBuffer.addAll {T : Type} (b : ReplayBuffer T) (l : List T) : ReplayBuffer T :=
  l.foldl ReplayBuffer.add b

/-! ## DDPG.train (model.py lines 224-277)

The neural networks and the optimiser are opaque differentiable functions;
the embedding keeps the data flow of train that the claims are about: which
batch tensors feed which target network, and the unconditional soft update of
the target parameters at the end of every call. -/

/-- The two target networks sampled by the target computation of train, as
opaque functions: the target actor maps a state batch to an action batch, the
target critic maps a state/action pair to a value. -/
structure TrainNets (S A : Type) where
  actor_target : S → A
  critic_target : S → A → ℚ

/-- The no-grad target value computed by DDPG.train (model.py lines 235-243):
next_action = actor_target(state) - note the argument is the state batch, not
next_state - then target_Q = critic_target(next_state, next_action), then
target_Q = reward + not_done * discount * target_Q. -/
def computeTargetQ {S A : Type} (nets : TrainNets S A) (discount : ℚ) (state next_state : S)
    (reward not_done : ℚ) : ℚ :=
  let next_action := nets.actor_target state
  let targetQ := nets.critic_target next_state next_action
  reward + not_done * discount * targetQ

/-- Follows the words of the claim (and of the spec): the target action is the
target actor applied to the sampled next_state batch. Stated for comparison
with computeTargetQ, which embeds the source. -/
def computeTargetQClaimed {S A : Type} (nets : TrainNets S A) (discount : ℚ) (state next_state : S)
    (reward not_done : ℚ) : ℚ :=
  let next_action := nets.actor_target next_state
  let targetQ := nets.critic_target next_state next_action
  reward + not_done * discount * targetQ

/-- The soft-update formula of the target-network loop (model.py lines
265-277): tau * param + (1 - tau) * target_param, elementwise. -/
def soft_update (tau live target : ℚ) : ℚ :=
  tau * live + (1 - tau) * target

/-- The mutable attributes of the DDPG object that the end of train touches;
parameter tensors are flattened to maps from an index. -/
structure DDPGState where
  total_it : Nat
  policy_freq : Nat
  tau : ℚ
  actorParams : Nat → ℚ
  criticParams : Nat → ℚ
  actor_target : Nat → ℚ
  critic_target : Nat → ℚ

/-- The state mutation performed by one DDPG.train call: the counter is
incremented, the live parameters move to their post-optimiser values newActor
and newCritic (the gradient arithmetic is opaque), and both target networks
are soft-updated toward the new live parameters - unconditionally, with no
test of total_it against policy_freq anywhere in the call. -/
def DDPG.trainUpdate (m : DDPGState) (newActor newCritic : Nat → ℚ) : DDPGState :=
  { m with
    total_it := m.total_it + 1,
    actorParams := newActor,
    criticParams := newCritic,
    critic_target := fun i => soft_update m.tau (newCritic i) (m.critic_target i),
    actor_target := fun i => soft_update m.tau (newActor i) (m.actor_target i) }

/-! ## Training loop done flag (environment.py line 259) -/

/-- The done_bool stored with each transition by run:
float(done) if episode_timesteps < env.max_epochs else 0. -/
def done_bool (episode_timesteps : Nat) (max_epochs : Int) (done : Bool) : ℚ :=
  if (episode_timesteps : Int) < max_epochs then (if done then 1 else 0) else 0

/-- Follows the words of the claim: the stored flag is zeroed when the episode
has not reached its maximum length, and otherwise equals the done flag of the
environment. Stated for comparison with done_bool, which embeds the source. -/
def done_bool_claimed (episode_timesteps : Nat) (max_epochs : Int) (done : Bool) : ℚ :=
  if (episode_timesteps : Int) < max_epochs then 0 else (if done then 1 else 0)

/-! ## Concrete instances used by the witnesses -/

/-- A minimal concrete environment: empty stock list, every date valid, all
prices empty vectors. -/
def envC : StockEnv :=
  { valid_dates := fun _ => true,
    prices := fun _ _ => [],
    startDay := 0,
    max_epochs := 0,
    epochs := 0,
    starting_amount := 0,
    st := { cash := 0, holdings := [] } }

/-- The environment that StockEnv.step envC [] returns. -/
def envC' : StockEnv :=
  { envC with
    epochs := 1,
    st := { cash := (0 : ℚ) - dot [] [], holdings := List.zipWith (fun h a => h + a) [] [] } }

/-- The reward that StockEnv.step envC [] returns. -/
def rewardC : ℚ :=
  ((0 : ℚ) - dot [] []) + dot (List.zipWith (fun h a => h + a) [] []) [] - 0

/-! ## Helper lemmas -/

theorem incrementDateAux_ok {v : Int → Bool} {s e : Int} :
    ∀ (left incr : Nat) (e' : Int), 1 ≤ incr →
      incrementDateAux v s e incr left = Except.ok e' →
      e < e' ∧ v (s + e'.fdiv 2) = true := by
  intro left
  induction left with
  | zero =>
    intro incr e' h1 h2
    unfold incrementDateAux at h2
    split at h2
    · rename_i hvalid
      injection h2 with h2
      subst h2
      exact ⟨by omega, hvalid⟩
    · exact absurd h2 (by simp)
  | succ n ih =>
    intro incr e' h1 h2
    unfold incrementDateAux at h2
    split at h2
    · rename_i hvalid
      injection h2 with h2
      subst h2
      exact ⟨by omega, hvalid⟩
    · exact ih (incr + 1) e' (by omega) h2

theorem incrementDateAux_error {v : Int → Bool} {s e : Int} :
    ∀ (left incr : Nat), incr + left = 19 →
      (∀ i : Nat, incr ≤ i → i ≤ 19 → v (s + (e + (i : Int)).fdiv 2) = false) →
      incrementDateAux v s e incr left = Except.error "out of range" := by
  intro left
  induction left with
  | zero =>
    intro incr hsum hall
    unfold incrementDateAux
    rw [hall incr le_rfl (by omega)]
    simp
  | succ n ih =>
    intro incr hsum hall
    unfold incrementDateAux
    rw [hall incr le_rfl (by omega)]
    simp only [Bool.false_eq_true, if_false]
    exact ih (incr + 1) (by omega) (fun i hi hle => hall i (by omega) hle)

theorem addAll_max_size {T : Type} (l : List T) :
    ∀ b : ReplayBuffer T, (b.addAll l).max_size = b.max_size := by
  induction l with
  | nil => intro b; rfl
  | cons t l ih => intro b; exact (ih (b.add t)).trans rfl

theorem addAll_ptr {T : Type} (l : List T) :
    ∀ b : ReplayBuffer T, b.ptr < b.max_size →
      (b.addAll l).ptr = (b.ptr + l.length) % b.max_size := by
  induction l with
  | nil =>
    intro b h
    simpa [ReplayBuffer.addAll] using (Nat.mod_eq_of_lt h).symm
  | cons t l ih =>
    intro b h
    have h0 : 0 < b.max_size := Nat.lt_of_le_of_lt (Nat.zero_le _) h
    have hstep : (b.addAll (t :: l)).ptr = ((b.add t).addAll l).ptr := rfl
    have hp : (b.add t).ptr < (b.add t).max_size := Nat.mod_lt _ h0
    rw [hstep, ih (b.add t) hp]
    show ((b.ptr + 1) % b.max_size + l.length) % b.max_size
        = (b.ptr + (l.length + 1)) % b.max_size
    rw [Nat.mod_add_mod]
    congr 1
    omega

theorem addAll_size {T : Type} (l : List T) :
    ∀ b : ReplayBuffer T, b.size ≤ b.max_size →
      (b.addAll l).size = min (b.size + l.length) b.max_size := by
  induction l with
  | nil =>
    intro b h
    simp [ReplayBuffer.addAll]
    omega
  | cons t l ih =>
    intro b h
    have hstep : (b.addAll (t :: l)).size = ((b.add t).addAll l).size := rfl
    have hb : (b.add t).size ≤ (b.add t).max_size := by
      show min (b.size + 1) b.max_size ≤ b.max_size
      omega
    rw [hstep, ih (b.add t) hb]
    show min (min (b.size + 1) b.max_size + l.length) b.max_size
        = min (b.size + (l.length + 1)) b.max_size
    omega

theorem addAll_storage_zero {T : Type} (l : List T) :
    ∀ b : ReplayBuffer T, 0 < b.ptr → b.ptr + l.length ≤ b.max_size →
      (b.addAll l).storage 0 = b.storage 0 := by
  induction l with
  | nil => intro b _ _; rfl
  | cons t l ih =>
    intro b hp hle
    have hstep : (b.addAll (t :: l)).storage 0 = ((b.add t).addAll l).storage 0 := rfl
    have hs : (b.add t).storage 0 = b.storage 0 := by
      show (if 0 = b.ptr then t else b.storage 0) = b.storage 0
      rw [if_neg (by omega)]
    rcases Nat.lt_or_ge (b.ptr + 1) b.max_size with hlt | hge
    · have hptr : (b.add t).ptr = b.ptr + 1 := Nat.mod_eq_of_lt hlt
      rw [hstep, ih (b.add t) (by rw [hptr]; omega) (by rw [hptr]; show b.ptr + 1 + l.length ≤ b.max_size; simp at hle ⊢; omega), hs]
    · have hlen : l.length = 0 := by simp at hle; omega
      have hnil : l = [] := List.eq_nil_of_length_eq_zero hlen
      subst hnil
      rw [hstep]
      exact hs

/-! ## Claim theorems -/

/-- C1: the claim states that DDPG.train computes the target action by applying
the target actor network to the sampled next_state batch. The source
(model.py line 237) applies it to the state batch instead. At the concrete
batch below (identity target actor, target critic returning its action
argument, state 0, next_state 1, reward 0, not_done 1, discount 1) the target
value the code computes is 0 while the value the claim describes is 1. -/
theorem c1_train_target_action_uses_state :
    computeTargetQ (TrainNets.mk (fun s : ℚ => s) (fun _ a => a)) 1 0 1 0 1 = 0
    ∧ computeTargetQClaimed (TrainNets.mk (fun s : ℚ => s) (fun _ a => a)) 1 0 1 0 1 = 1
    ∧ (0 : ℚ) ≠ 1 := by
  refine ⟨?_, ?_, by norm_num⟩ <;> norm_num [computeTargetQ, computeTargetQClaimed]

/-- C4: every add writes the transition at the current write pointer, then
advances the pointer modulo capacity and clamps size at capacity; size never
exceeds capacity along any add sequence; after capacity + k adds (k > 0) the
size equals the capacity; and the entry written by the first add is still in
slot 0 through the capacity-th add and is overwritten exactly at the
(capacity + 1)-th add. -/
theorem c4_replay_buffer_ring :
    (∀ (T : Type) (b : ReplayBuffer T) (t : T),
      (b.add t).storage b.ptr = t
      ∧ (b.add t).ptr = (b.ptr + 1) % b.max_size
      ∧ (b.add t).size = min (b.size + 1) b.max_size)
    ∧ (∀ (T : Type) (b : ReplayBuffer T) (l : List T), b.size ≤ b.max_size →
      (b.addAll l).size ≤ b.max_size)
    ∧ (∀ (T : Type) (init : T) (cap k : Nat) (l : List T), 0 < k → l.length = cap + k →
      ((ReplayBuffer.empty T init cap).addAll l).size = cap)
    ∧ (∀ (T : Type) (init t : T) (cap : Nat) (l : List T), 0 < cap → l.length + 1 ≤ cap →
      (((ReplayBuffer.empty T init cap).add t).addAll l).storage 0 = t)
    ∧ (∀ (T : Type) (init t t' : T) (cap : Nat) (l : List T), 0 < cap → l.length + 1 = cap →
      ((((ReplayBuffer.empty T init cap).add t).addAll l).add t').storage 0 = t') := by
  refine ⟨?_, ?_, ?_, ?_, ?_⟩
  · intro T b t
    refine ⟨?_, rfl, rfl⟩
    show (if b.ptr = b.ptr then t else b.storage b.ptr) = t
    rw [if_pos rfl]
  · intro T b l h
    rw [addAll_size l b h]
    omega
  · intro T init cap k l hk hlen
    rw [addAll_size l _ (Nat.zero_le _)]
    show min (0 + l.length) cap = cap
    omega
  · intro T init t cap l hcap hlen
    have hb : ((ReplayBuffer.empty T init cap).add t).storage 0 = t := by
      show (if 0 = 0 then t else init) = t
      rw [if_pos rfl]
    rcases Nat.lt_or_ge 1 cap with hgt | hle
    · have hptr : ((ReplayBuffer.empty T init cap).add t).ptr = 1 := by
        show (0 + 1) % cap = 1
        exact Nat.mod_eq_of_lt hgt
      rw [addAll_storage_zero l _ (by rw [hptr]; omega)
        (by rw [hptr]; show 1 + l.length ≤ cap; omega), hb]
    · have hcap1 : cap = 1 := by omega
      have hnil : l = [] := List.eq_nil_of_length_eq_zero (by omega)
      subst hnil
      exact hb
  · intro T init t t' cap l hcap hlen
    have hptr0 : ((ReplayBuffer.empty T init cap).add t).ptr = 1 % cap := by
      show (0 + 1) % cap = 1 % cap
      rfl
    have hptrlt : ((ReplayBuffer.empty T init cap).add t).ptr
        < ((ReplayBuffer.empty T init cap).add t).max_size := by
      rw [hptr0]
      exact Nat.mod_lt _ hcap
    have hfull : ((((ReplayBuffer.empty T init cap).add t).addAll l)).ptr = 0 := by
      rw [addAll_ptr l _ hptrlt, hptr0]
      show (1 % cap + l.length) % cap = 0
      rw [Nat.mod_add_mod]
      have : 1 + l.length = cap := by omega
      rw [this, Nat.mod_self]
    show (if 0 = (((ReplayBuffer.empty T init cap).add t).addAll l).ptr then t'
          else ((((ReplayBuffer.empty T init cap).add t).addAll l)).storage 0) = t'
    rw [hfull, if_pos rfl]

/-- C4 witness: a capacity-2 buffer, concrete adds. -/
theorem c4_replay_buffer_ring_witness :
    (ReplayBuffer.empty Nat 0 2).size ≤ (ReplayBuffer.empty Nat 0 2).max_size
    ∧ ((ReplayBuffer.empty Nat 0 2).addAll [5, 6, 7]).size ≤ (ReplayBuffer.empty Nat 0 2).max_size
    ∧ ((ReplayBuffer.empty Nat 0 2).addAll [5, 6, 7]).size = 2
    ∧ (((ReplayBuffer.empty Nat 0 2).add 5).addAll [6]).storage 0 = 5
    ∧ ((((ReplayBuffer.empty Nat 0 2).add 5).addAll [6]).add 7).storage 0 = 7 :=
  ⟨by decide,
   c4_replay_buffer_ring.2.1 Nat (ReplayBuffer.empty Nat 0 2) [5, 6, 7] (by decide),
   c4_replay_buffer_ring.2.2.1 Nat 0 2 1 [5, 6, 7] (by decide) (by decide),
   c4_replay_buffer_ring.2.2.2.1 Nat 0 5 2 [6] (by decide) (by decide),
   c4_replay_buffer_ring.2.2.2.2 Nat 0 5 7 2 [6] (by decide) (by decide)⟩

/-- C5: every DDPG.train call ends by soft-updating every target parameter of
both networks to tau * live + (1 - tau) * target, with no dependence on
total_it or policy_freq; for tau strictly between 0 and 1 the updated value
lies strictly between the previous target value and the live value, and
equals both when they were equal. -/
theorem c5_soft_update_every_train_call :
    (∀ (m : DDPGState) (na nc : Nat → ℚ) (i : Nat),
      (DDPG.trainUpdate m na nc).actor_target i = soft_update m.tau (na i) (m.actor_target i)
      ∧ (DDPG.trainUpdate m na nc).critic_target i = soft_update m.tau (nc i) (m.critic_target i))
    ∧ (∀ (m : DDPGState) (na nc : Nat → ℚ) (t : Nat),
      (DDPG.trainUpdate { m with total_it := t } na nc).actor_target
        = (DDPG.trainUpdate m na nc).actor_target
      ∧ (DDPG.trainUpdate { m with total_it := t } na nc).critic_target
        = (DDPG.trainUpdate m na nc).critic_target)
    ∧ (∀ tau live target : ℚ, 0 < tau → tau < 1 →
      (target < live →
        target < soft_update tau live target ∧ soft_update tau live target < live)
      ∧ (live < target →
        live < soft_update tau live target ∧ soft_update tau live target < target)
      ∧ (target = live → soft_update tau live target = live)) := by
  refine ⟨fun m na nc i => ⟨rfl, rfl⟩, fun m na nc t => ⟨rfl, rfl⟩, ?_⟩
  intro tau live target h0 h1
  simp only [soft_update]
  refine ⟨?_, ?_, ?_⟩
  · intro hlt
    constructor
    · nlinarith [mul_pos h0 (sub_pos.mpr hlt)]
    · nlinarith [mul_pos (sub_pos.mpr h1) (sub_pos.mpr hlt)]
  · intro hlt
    constructor
    · nlinarith [mul_pos (sub_pos.mpr h1) (sub_pos.mpr hlt)]
    · nlinarith [mul_pos h0 (sub_pos.mpr hlt)]
  · intro heq
    subst heq
    show tau * target + (1 - tau) * target = target
    ring

/-- C5 witness: tau = 1/2, live = 1, previous target = 0. -/
theorem c5_soft_update_witness :
    (0 : ℚ) < 1 / 2 ∧ (1 : ℚ) / 2 < 1
    ∧ (0 : ℚ) < soft_update (1 / 2) 1 0 ∧ soft_update (1 / 2) 1 0 < 1 :=
  ⟨one_half_pos, one_half_lt_one,
   ((c5_soft_update_every_train_call.2.2 (1 / 2) 1 0 one_half_pos one_half_lt_one).1
     zero_lt_one).1,
   ((c5_soft_update_every_train_call.2.2 (1 / 2) 1 0 one_half_pos one_half_lt_one).1
     zero_lt_one).2⟩

/-- C6: whenever increment_date returns normally it strictly increases the
epoch counter and the date the environment then sits on (start date advanced
by the floor-halved new epoch count) is in the trading calendar; and when no
calendar date is found at the tested offsets the call raises the out-of-range
error. -/
theorem c6_increment_date_monotone_valid :
    (∀ (v : Int → Bool) (s e e' : Int), increment_date v s e = Except.ok e' →
      e < e' ∧ v (s + e'.fdiv 2) = true)
    ∧ (∀ (v : Int → Bool) (s e : Int),
      (∀ i : Nat, i < 20 → 1 ≤ i → v (s + (e + (i : Int)).fdiv 2) = false) →
      increment_date v s e = Except.error "out of range") := by
  constructor
  · intro v s e e' h
    exact incrementDateAux_ok 18 1 e' (by omega) h
  · intro v s e hall
    exact incrementDateAux_error 18 1 (by omega) (fun i h1 h2 => hall i (by omega) h1)

/-- C6 witness: with every date valid the first increment succeeds. -/
theorem c6_increment_date_witness :
    (0 : Int) < 1 ∧ (fun _ : Int => true) (0 + (1 : Int).fdiv 2) = true :=
  c6_increment_date_monotone_valid.1 (fun _ => true) 0 0 1 rfl

/-- C7: the claim states that malformed or non-positive date components make
construction raise. In the source, initialize_date returns the boolean False
from inside the loop (environment.py line 187) without raising, and the
calling line 57 is a bare tuple where an assert was evidently intended, so
nothing raises at validation time. Both a non-digit component and a zero
component in a leading position take that silent path. -/
theorem c7_invalid_dates_return_false_silently :
    initialize_date ["ab", "01", "2020"] ["01", "11", "2020"] = InitDateResult.returnedFalse
    ∧ initialize_date ["0", "01", "2020"] ["01", "11", "2020"] = InitDateResult.returnedFalse :=
  ⟨by decide, by decide⟩

/-- C9 counterexample: the claim says the stored done flag is zeroed when the
episode has not reached its maximum length and otherwise equals the done
flag of the environment. At episode_timesteps = 25 >= max_epochs = 20 with
done = true, the code stores 0 while the claimed rule stores 1. -/
theorem c9_done_flag_claim_false :
    done_bool 25 20 true = 0 ∧ done_bool_claimed 25 20 true = 1
    ∧ done_bool 25 20 true ≠ done_bool_claimed 25 20 true := by
  refine ⟨?_, ?_, ?_⟩ <;> norm_num [done_bool, done_bool_claimed]

/-- C9 amended: the stored done flag is zeroed when episode_timesteps has
reached env.max_epochs (truncation), and otherwise equals the done flag of
the environment. -/
theorem c9_done_flag_truncation_amended :
    ∀ (t : Nat) (m : Int) (d : Bool),
      (m ≤ (t : Int) → done_bool t m d = 0)
      ∧ ((t : Int) < m → done_bool t m d = (if d then 1 else 0)) := by
  intro t m d
  constructor
  · intro h
    show (if (t : Int) < m then (if d then (1 : ℚ) else 0) else 0) = 0
    rw [if_neg (not_lt.mpr h)]
  · intro h
    show (if (t : Int) < m then (if d then (1 : ℚ) else 0) else 0) = (if d then 1 else 0)
    rw [if_pos h]

/-- C9 witness: a truncated transition stores a zero flag. -/
theorem c9_done_flag_truncation_witness : done_bool 25 20 true = 0 :=
  (c9_done_flag_truncation_amended 25 20 true).1 (by decide)

/-- C10: the search loop of increment_date only ever tests offsets 1 through
19; when every one of those misses the calendar it raises, even under the
additional hypothesis that the date at offset 20 is a valid trading date. -/
theorem c10_search_never_tests_offset_twenty :
    ∀ (v : Int → Bool) (s e : Int),
      (∀ i : Nat, i < 20 → 1 ≤ i → v (s + (e + (i : Int)).fdiv 2) = false) →
      v (s + (e + 20).fdiv 2) = true →
      increment_date v s e = Except.error "out of range" := by
  intro v s e hall _
  exact incrementDateAux_error 18 1 (by omega) (fun i h1 h2 => hall i (by omega) h1)

/-- C10 witness: a calendar whose only valid day is exactly 20 half-day
increments ahead; the call still raises. -/
theorem c10_search_witness :
    (∀ i : Nat, i < 20 → 1 ≤ i →
      (fun d : Int => d == 10) (0 + ((0 : Int) + (i : Int)).fdiv 2) = false)
    ∧ (fun d : Int => d == 10) (0 + ((0 : Int) + 20).fdiv 2) = true
    ∧ increment_date (fun d : Int => d == 10) 0 0 = Except.error "out of range" :=
  ⟨by decide, by decide,
   c10_search_never_tests_offset_twenty (fun d : Int => d == 10) 0 0 (by decide) (by decide)⟩

/-- C2: the reward returned by every normally returning StockEnv.step call
equals the post-step cash plus the dot product of the new holdings with the
prices at the post-advance date/time, minus starting_amount, which is
unchanged by the step and which every reset sets to the portfolio value of
the freshly reset state. -/
theorem c2_step_reward_is_cumulative_pnl :
    (∀ (env : StockEnv) (action : List ℚ) (env' : StockEnv) (r : ℚ) (d : Bool),
      env.step action = Except.ok (env', r, d) →
      r = env'.st.cash + dot env'.st.holdings (env'.prices env'.dateTime.1 env'.dateTime.2)
            - env.starting_amount
      ∧ env'.starting_amount = env.starting_amount)
    ∧ (∀ (env : StockEnv) (m : ℚ) (sh : List ℚ) (se : Int) (env' : StockEnv),
      env.reset m sh se = Except.ok env' →
      env'.starting_amount = env'.calculate_portfolio_value) := by
  constructor
  · intro env action env' r d h
    unfold StockEnv.step at h
    split at h
    · exact Except.noConfusion h
    · simp only [Except.ok.injEq, Prod.mk.injEq] at h
      obtain ⟨h1, h2, h3⟩ := h
      subst h1
      subst h2
      exact ⟨rfl, rfl⟩
  · intro env m sh se env' h
    unfold StockEnv.reset at h
    split at h
    · exact Except.noConfusion h
    · simp only [Except.ok.injEq] at h
      subst h
      rfl

/-- C2 witness: a concrete one-step episode on the empty-stock environment. -/
theorem c2_step_reward_witness :
    StockEnv.step envC [] = Except.ok (envC', rewardC, true)
    ∧ envC'.starting_amount = envC.starting_amount :=
  ⟨rfl, (c2_step_reward_is_cumulative_pnl.1 envC [] envC' rewardC true rfl).2⟩

/-- C3: is_done holds exactly when the epoch counter has reached max_epochs;
whenever initialize_date completes, the stored max_epochs is twice the day
difference of the two parsed dates; and on the 10-day range from 01-01-2020
to 01-11-2020 it stores 20. -/
theorem c3_is_done_iff_and_max_epochs :
    (∀ e me : Int, is_done e me = true ↔ me ≤ e)
    ∧ (∀ (sa ea : List String) (me : Int), initialize_date sa ea = InitDateResult.ok me →
      me = (parsedOrdinal ea - parsedOrdinal sa) * 2)
    ∧ initialize_date ["01", "01", "2020"] ["01", "11", "2020"] = InitDateResult.ok 20 := by
  refine ⟨?_, ?_, by decide⟩
  · intro e me
    simp [is_done, ge_iff_le]
  · intro sa ea me h
    unfold initialize_date at h
    split at h
    · exact InitDateResult.noConfusion h
    · dsimp only at h
      split at h
      all_goals try (exact InitDateResult.noConfusion h)
      rename_i y1 m1 d1 y2 m2 d2 hg1 hg2 hg3 hg4 hg5 hg6
      split at h
      · split at h
        · simp only [InitDateResult.ok.injEq] at h
          subst h
          unfold parsedOrdinal
          dsimp only
          rw [hg1, hg2, hg3, hg4, hg5, hg6]
        · exact InitDateResult.noConfusion h
      · exact InitDateResult.noConfusion h

/-- C3 witness: is_done at the boundary, and the 10-day example range. -/
theorem c3_is_done_witness :
    is_done 20 20 = true
    ∧ (20 : Int) = (parsedOrdinal ["01", "11", "2020"] - parsedOrdinal ["01", "01", "2020"]) * 2 :=
  ⟨(c3_is_done_iff_and_max_epochs.1 20 20).mpr le_rfl,
   c3_is_done_iff_and_max_epochs.2.1 ["01", "01", "2020"] ["01", "11", "2020"] 20 (by decide)⟩

/-- C8: both get_date_and_time and the date-range validation of
initialize_date interpret the first hyphen-separated token as the month, the
second as the day and the third as the year: the date objects they construct
carry the ordinal of (year = token 2, month = token 0, day = token 1). -/
theorem c8_dates_parsed_as_month_day_year :
    (∀ (a b c : String) (e : Int),
      get_date_and_time [a, b, c] e =
        (if validYMD (pyInt c) (pyInt a) (pyInt b) then
          DateTimeResult.ok ((toOrdinal (pyInt c) (pyInt a) (pyInt b) : Int) + e.fdiv 2)
            (if e % 2 == 0 then "Open" else "Close")
        else DateTimeResult.raised))
    ∧ (∀ (a b c d f g : String),
      pyDigits a = true → pyDigits b = true → pyDigits c = true →
      pyDigits d = true → pyDigits f = true → pyDigits g = true →
      0 < pyInt a → 0 < pyInt b → 0 < pyInt c →
      0 < pyInt d → 0 < pyInt f → 0 < pyInt g →
      initialize_date [a, b, c] [d, f, g] =
        (if validYMD (pyInt c) (pyInt a) (pyInt b) && validYMD (pyInt g) (pyInt d) (pyInt f) then
          (if 0 ≤ (toOrdinal (pyInt g) (pyInt d) (pyInt f) : Int)
                - (toOrdinal (pyInt c) (pyInt a) (pyInt b) : Int) then
            InitDateResult.ok (((toOrdinal (pyInt g) (pyInt d) (pyInt f) : Int)
                - (toOrdinal (pyInt c) (pyInt a) (pyInt b) : Int)) * 2)
          else InitDateResult.raised)
        else InitDateResult.raised)) := by
  constructor
  · intro a b c e
    rfl
  · intro a b c d f g ha hb hc hd hf hg pa pb pc pd pf pg
    have hloop : dateLoop ([a, b, c].zip [d, f, g]) true = some true := by
      simp [dateLoop, ha, hb, hc, hd, hf, hg, decide_eq_true pa, decide_eq_true pb,
        decide_eq_true pc, decide_eq_true pd, decide_eq_true pf, decide_eq_true pg]
    unfold initialize_date
    rw [hloop]
    dsimp only [List.map, List.get?]
    simp only [true_and]

/-- C8 witness: concrete digit tokens, month-first reading. -/
theorem c8_dates_parsed_witness :
    pyDigits "01" = true ∧ 0 < pyInt "02"
    ∧ initialize_date ["01", "02", "2020"] ["01", "03", "2020"] =
        (if validYMD (pyInt "2020") (pyInt "01") (pyInt "02")
              && validYMD (pyInt "2020") (pyInt "01") (pyInt "03") then
          (if 0 ≤ (toOrdinal (pyInt "2020") (pyInt "01") (pyInt "03") : Int)
                - (toOrdinal (pyInt "2020") (pyInt "01") (pyInt "02") : Int) then
            InitDateResult.ok (((toOrdinal (pyInt "2020") (pyInt "01") (pyInt "03") : Int)
                - (toOrdinal (pyInt "2020") (pyInt "01") (pyInt "02") : Int)) * 2)
          else InitDateResult.raised)
        else InitDateResult.raised) :=
  ⟨by decide, by decide,
   c8_dates_parsed_as_month_day_year.2 "01" "02" "2020" "01" "03" "2020"
     (by decide) (by decide) (by decide) (by decide) (by decide) (by decide)
     (by decide) (by decide) (by decide) (by decide) (by decide) (by decide)⟩
